import Mathlib

/-!
Verification of the `n-ble` Bluetooth LE HCI host driver (TypeScript sources:
`src/Hci.ts`, `src/HciLeController.ts`, `src/AdvDataParser.ts`, and the ATT PDU
codec file).  Buffers are modelled as `List Nat` of byte values; JavaScript
`Buffer` reads/writes that can throw `ERR_OUT_OF_RANGE` are modelled with
`Option`/`Except`.  Node's `Buffer.prototype.reverse` reverses the buffer in
place, so codecs that call it are modelled by also returning the final contents
of the caller's buffers.
-/

namespace NBle

/-- Little-endian 16-bit read: `buf.readUInt16LE(o)` is `buf[o] + 256 * buf[o+1]`
(callers below only use it at in-bounds offsets). -/
def readUInt16LE (b0 b1 : Nat) : Nat := b0 + 256 * b1

/-- Little-endian bytes of a 16-bit value, as written by `buffer.writeUInt16LE`. -/
def uint16LEBytes (v : Nat) : List Nat := [v % 256, v / 256 % 256]

/-- Little-endian read of `len` bytes starting at `offset`, as `buf.readUIntLE(offset, len)`
(callers below only use it at in-bounds offsets). -/
def readUIntLE (buf : List Nat) (offset len : Nat) : Nat :=
  ((buf.drop offset).take len).foldr (fun b acc => b + 256 * acc) 0

/-- In-place write of a byte block into a buffer at an offset, as done by the
`Buffer.writeUIntLE`/`copy` calls of the source (all call sites are in bounds). -/
def bufWrite (buf : List Nat) (offset : Nat) (bytes : List Nat) : List Nat :=
  buf.take offset ++ bytes ++ buf.drop (offset + bytes.length)

/-! ## HCI opcode registry (`Hci.ts`, class `HciOpcode`) -/

/-- Opcode pack from `HciOpcode.build`: `ogf << 10 | ocf`. -/
def HciOpcode.build (ogf ocf : Nat) : Nat := ogf <<< 10 ||| ocf

/-- Opcode unpack from `HciOpcode.expand`: `(opcode >> 10, opcode & 1023)`. -/
def HciOpcode.expand (opcode : Nat) : Nat × Nat := (opcode >>> 10, opcode &&& 1023)

/-- Modelled from the spec: the enum values `HciOgf.ControlAndBasebandCommands = 0x03`
and `HciOcfControlAndBasebandCommands.Reset = 0x0003` live in `HciOgfOcf.ts`, which is
not among the provided sources; spec §8 S1 fixes them (OGF=0x03, OCF=0x0003). -/
def HciOgf.ControlAndBasebandCommands : Nat := 0x03

/-- Modelled from the spec: `Reset` OCF from `HciOgfOcf.ts` (not among the provided
sources); spec §8 S1 gives OCF=0x0003. -/
def HciOcfControlAndBasebandCommands.Reset : Nat := 0x0003

/-- Modelled from the spec: `HciErrorCode.Success` from `HciError.ts` (not among the
provided sources); spec §4.3 step 5 fixes the success status byte to `0x00`. -/
def HciErrorCode.Success : Nat := 0x00

/-! ## HCI command engine (`Hci.ts`, class `Hci`) -/

/-- Error enum `HciParserError` of `Hci.ts`. -/
inductive HciParserError where
  | InvalidPayloadSize
  | Busy
  | Timeout
deriving DecidableEq, Repr

/-- Interface `HciCommand` of `Hci.ts` (`params?` is optional). -/
structure HciCommand where
  opcode : Nat
  params : Option (List Nat) := none
deriving DecidableEq, Repr

/-- Interface `HciEvtCmdComplete` of `Hci.ts`. -/
structure HciEvtCmdComplete where
  numHciPackets : Nat
  opcode : Nat
  status : Nat
  returnParameters : List Nat
deriving DecidableEq, Repr

/-- Mutable state of class `Hci`: `cmdTimeout`, `cmdOpcode`, and whether the
single pending-command slot is occupied (`onCmdComplete !== null`). -/
structure HciState where
  cmdTimeout : Nat
  cmdOpcode : Nat
  pending : Bool
deriving DecidableEq, Repr

/-- Constructor of `Hci`: `cmdTimeout = init.cmdTimeout ?? 2000`, slot empty. -/
def Hci.init (cmdTimeout : Option Nat) : HciState :=
  { cmdTimeout := cmdTimeout.getD 2000, cmdOpcode := 0, pending := false }

/-- Packet builder `Hci.buildBuffer`: a zero-filled buffer of size `3 + param_len`
receives `writeUInt16LE(opcode, 0)`, `writeUInt8(param_len, 2)` and `params.copy(buffer, 3)`.
`none` models the `ERR_OUT_OF_RANGE` throw of the write calls (opcode over 16 bits, or
more than 255 parameter bytes). -/
def Hci.buildBuffer (cmd : HciCommand) : Option (List Nat) :=
  let params := cmd.params.getD []
  let payloadLength := params.length
  if 65535 < cmd.opcode ∨ 255 < payloadLength then none
  else
    let buffer := List.replicate (3 + payloadLength) 0
    let buffer := bufWrite buffer 0 (uint16LEBytes cmd.opcode)
    let buffer := bufWrite buffer 2 [payloadLength]
    let buffer := bufWrite buffer 3 params
    some buffer

/-- Synchronous outcome of `Hci.send` as observed by the caller and the transport. -/
inductive SendAction where
  | rejected (err : HciParserError)
  | sent (packet : List Nat)
  | writeRangeError
deriving DecidableEq, Repr

/-- Body of `Hci.send`: reject `Busy` while the slot is occupied (state untouched,
nothing sent); otherwise occupy the slot, record the opcode, and hand the built
packet to `sendRaw`. -/
def Hci.send (st : HciState) (cmd : HciCommand) : HciState × SendAction :=
  if st.pending then (st, .rejected HciParserError.Busy)
  else
    let st' := { st with pending := true, cmdOpcode := cmd.opcode }
    match Hci.buildBuffer cmd with
    | some pkt => (st', .sent pkt)
    | none => (st', .writeRangeError)

/-- Timer expiry in `Hci.send`: `complete(makeError(Timeout))` clears the slot and
rejects the awaiting caller with `Timeout`. -/
def Hci.onCmdTimeout (st : HciState) : HciState × HciParserError :=
  ({ st with pending := false }, HciParserError.Timeout)

/-- Observable effect of one `Hci.onData` call. -/
inductive EventAction where
  | droppedInvalidSize
  | parserErrorLength
  | parserErrorCmdComplete
  | unhandledEvent
  | noHandler
  | ignoredOpcodeMismatch (evt : HciEvtCmdComplete)
  | resolved (evt : HciEvtCmdComplete)
  | rejectedWithHciError (status : Nat)
deriving DecidableEq, Repr

/-- Event dispatcher `Hci.onData` combined with the `onCmdComplete` closure installed
by `Hci.send`: header validation, Command Complete decoding, opcode-directed dispatch,
and resolution of the pending command. -/
def Hci.onData (st : HciState) (data : List Nat) : HciState × EventAction :=
  match data with
  | [] => (st, .droppedInvalidSize)
  | [_] => (st, .droppedInvalidSize)
  | eventCode :: payloadLength :: payload =>
    if payloadLength ≠ payload.length then (st, .parserErrorLength)
    else if eventCode = 0x0e then
      match payload with
      | p0 :: p1 :: p2 :: p3 :: rest =>
        if st.pending then
          let evt : HciEvtCmdComplete :=
            { numHciPackets := p0, opcode := readUInt16LE p1 p2, status := p3,
              returnParameters := rest }
          if st.cmdOpcode ≠ evt.opcode then (st, .ignoredOpcodeMismatch evt)
          else if evt.status = HciErrorCode.Success then
            ({ st with pending := false }, .resolved evt)
          else ({ st with pending := false }, .rejectedWithHciError evt.status)
        else (st, .noHandler)
      | _ => (st, .parserErrorCmdComplete)
    else (st, .unhandledEvent)

/-- Command `Hci.reset`: opcode built from OGF Control&Baseband and OCF Reset, no params. -/
def Hci.resetCmd : HciCommand :=
  { opcode := HciOpcode.build HciOgf.ControlAndBasebandCommands
      HciOcfControlAndBasebandCommands.Reset }

/-! ## Theorems: HCI command engine and opcode registry -/

/-- C1: while a command is pending, a new `Hci.send` rejects synchronously with
`Busy`, hands nothing to the transport, and leaves the pending slot and the
recorded opcode unchanged. -/
theorem cmd_busy_mutual_exclusion (st : HciState) (cmd : HciCommand)
    (h : st.pending = true) :
    Hci.send st cmd = (st, .rejected HciParserError.Busy) := by
  simp [Hci.send, h]

/-- Witness for C1 at a concrete occupied state. -/
theorem cmd_busy_mutual_exclusion_witness :
    (⟨2000, 0x0C03, true⟩ : HciState).pending = true ∧
    Hci.send ⟨2000, 0x0C03, true⟩ ⟨0x0C03, none⟩
      = (⟨2000, 0x0C03, true⟩, .rejected HciParserError.Busy) :=
  ⟨rfl, cmd_busy_mutual_exclusion ⟨2000, 0x0C03, true⟩ ⟨0x0C03, none⟩ rfl⟩

/-- C2: timer expiry rejects the awaiting caller with `Timeout` and clears the
pending slot, so a subsequent submission is not `Busy` and is handed to the
transport; the default `cmdTimeout` is 2000 ms. -/
theorem cmd_timeout_liveness (st : HciState) (cmd : HciCommand) (pkt : List Nat)
    (hp : st.pending = true) (hb : Hci.buildBuffer cmd = some pkt) :
    Hci.onCmdTimeout st = ({ st with pending := false }, HciParserError.Timeout)
    ∧ Hci.send (Hci.onCmdTimeout st).1 cmd
        = ({ st with pending := true, cmdOpcode := cmd.opcode }, .sent pkt)
    ∧ (Hci.init none).cmdTimeout = 2000 := by
  refine ⟨rfl, ?_, rfl⟩
  simp [Hci.onCmdTimeout, Hci.send, hb]

/-- Witness for C2: a pending Reset times out, then Reset can be resubmitted. -/
theorem cmd_timeout_liveness_witness :
    (⟨50, 0x0C03, true⟩ : HciState).pending = true ∧
    Hci.buildBuffer Hci.resetCmd = some [0x03, 0x0C, 0x00] ∧
    Hci.onCmdTimeout ⟨50, 0x0C03, true⟩ = (⟨50, 0x0C03, false⟩, HciParserError.Timeout) ∧
    Hci.send (Hci.onCmdTimeout ⟨50, 0x0C03, true⟩).1 Hci.resetCmd
      = (⟨50, 0x0C03, true⟩, .sent [0x03, 0x0C, 0x00]) :=
  ⟨rfl, by decide,
    (cmd_timeout_liveness ⟨50, 0x0C03, true⟩ Hci.resetCmd [0x03, 0x0C, 0x00]
      rfl (by decide)).1,
    (cmd_timeout_liveness ⟨50, 0x0C03, true⟩ Hci.resetCmd [0x03, 0x0C, 0x00]
      rfl (by decide)).2.1⟩

/-- C3: a well-formed Command Complete whose opcode differs from the pending one
neither resolves nor rejects the caller and leaves the state (slot and opcode)
unchanged; a later matching success event still resolves the caller, and timer
expiry still yields `Timeout`. -/
theorem cmd_complete_opcode_dispatch (st : HciState) (p0 p1 p2 p3 : Nat)
    (rest : List Nat) (hp : st.pending = true)
    (hne : readUInt16LE p1 p2 ≠ st.cmdOpcode) :
    Hci.onData st (0x0e :: (p0 :: p1 :: p2 :: p3 :: rest).length
        :: p0 :: p1 :: p2 :: p3 :: rest)
      = (st, .ignoredOpcodeMismatch ⟨p0, readUInt16LE p1 p2, p3, rest⟩)
    ∧ (∀ q0 q1 q2 : Nat, ∀ rest2 : List Nat, readUInt16LE q1 q2 = st.cmdOpcode →
        Hci.onData st (0x0e :: (q0 :: q1 :: q2 :: 0 :: rest2).length
            :: q0 :: q1 :: q2 :: 0 :: rest2)
          = ({ st with pending := false }, .resolved ⟨q0, st.cmdOpcode, 0, rest2⟩))
    ∧ (Hci.onCmdTimeout st).2 = HciParserError.Timeout := by
  refine ⟨?_, ?_, rfl⟩
  · simp [Hci.onData, hp, Ne.symm hne]
  · intro q0 q1 q2 rest2 hq
    simp [Hci.onData, hp, hq, HciErrorCode.Success]

/-- Witness for C3: opcode 0x0C04 arrives while 0x0C03 is pending and is ignored;
the matching 0x0C03 success then resolves. -/
theorem cmd_complete_opcode_dispatch_witness :
    Hci.onData ⟨2000, 0x0C03, true⟩ [0x0e, 0x04, 0x01, 0x04, 0x0c, 0x00]
      = (⟨2000, 0x0C03, true⟩, .ignoredOpcodeMismatch ⟨1, 0x0C04, 0, []⟩)
    ∧ Hci.onData ⟨2000, 0x0C03, true⟩ [0x0e, 0x04, 0x01, 0x03, 0x0c, 0x00]
      = (⟨2000, 0x0C03, false⟩, .resolved ⟨1, 0x0C03, 0, []⟩) := by
  have h := cmd_complete_opcode_dispatch ⟨2000, 0x0C03, true⟩ 1 4 12 0 []
    rfl (by decide)
  exact ⟨h.1, h.2.1 1 3 12 [] (by decide)⟩

/-- C4: submitting Reset sends exactly the bytes 03 0C 00; every built command
packet is opcode (u16 LE), param length (u8), parameters; feeding back
0E 04 01 03 0C 00 resolves the reset successfully. -/
theorem reset_packet_layout :
    Hci.send (Hci.init none) Hci.resetCmd
      = (⟨2000, 0x0C03, true⟩, .sent [0x03, 0x0C, 0x00])
    ∧ (∀ cmd : HciCommand, cmd.opcode ≤ 65535 →
        (cmd.params.getD []).length ≤ 255 →
        Hci.buildBuffer cmd = some (uint16LEBytes cmd.opcode
          ++ (cmd.params.getD []).length :: cmd.params.getD []))
    ∧ Hci.onData ⟨2000, 0x0C03, true⟩ [0x0e, 0x04, 0x01, 0x03, 0x0c, 0x00]
      = (⟨2000, 0x0C03, false⟩, .resolved ⟨1, 0x0C03, 0, []⟩) := by
  refine ⟨by decide, ?_, by decide⟩
  intro cmd h1 h2
  simp only [Hci.buildBuffer]
  rw [if_neg (by omega : ¬(65535 < cmd.opcode ∨ 255 < (cmd.params.getD []).length))]
  have h3 : 3 + (cmd.params.getD []).length - 2 = 1 + (cmd.params.getD []).length := by
    omega
  simp [bufWrite, uint16LEBytes, List.drop_replicate, List.take_replicate, h3]
  omega

/-- Witness for C4 on a one-parameter command. -/
theorem reset_packet_layout_witness :
    Hci.buildBuffer ⟨0x0C03, some [0x07]⟩ = some [0x03, 0x0C, 0x01, 0x07] :=
  reset_packet_layout.2.1 ⟨0x0C03, some [0x07]⟩ (by decide) (by decide)

/-- C5: for every `(ogf, ocf)` with `ogf < 64` and `ocf < 1024`,
`HciOpcode.expand (HciOpcode.build ogf ocf) = (ogf, ocf)`. -/
theorem opcode_roundtrip (ogf ocf : Nat) (hogf : ogf < 64) (hocf : ocf < 1024) :
    HciOpcode.expand (HciOpcode.build ogf ocf) = (ogf, ocf) := by
  have h1 : HciOpcode.build ogf ocf = 1024 * ogf + ocf := by
    unfold HciOpcode.build
    rw [Nat.shiftLeft_eq]
    have h := Nat.mul_add_lt_is_or (a := ogf) (by omega : ocf < 2 ^ 10)
    simpa [Nat.mul_comm] using h.symm
  unfold HciOpcode.expand
  rw [h1, Prod.mk.injEq]
  constructor
  · rw [Nat.shiftRight_eq_div_pow]
    norm_num
    rw [Nat.mul_add_div (by norm_num), Nat.div_eq_of_lt hocf]
    omega
  · have h1023 : (1023 : Nat) = 2 ^ 10 - 1 := by norm_num
    rw [h1023, Nat.and_pow_two_sub_one_eq_mod]
    norm_num [Nat.mul_add_mod, Nat.mod_eq_of_lt hocf]

/-- Witness for C5 at the Reset opcode pair. -/
theorem opcode_roundtrip_witness :
    HciOpcode.expand (HciOpcode.build 3 3) = (3, 3) :=
  opcode_roundtrip 3 3 (by decide) (by decide)

/-! ## ATT PDU codecs (the ATT codec source file) -/

/-- Outcome of a JavaScript call that can throw: either an exception of type `ε`
escapes, or a value is returned. -/
inductive JsOut (ε α : Type) where
  | throws (e : ε)
  | returns (a : α)
deriving DecidableEq, Repr

/-- Modelled from the spec: `AttOpcode.ErrorRsp` comes from `AttOpcode.ts`, which is
not among the provided sources; spec §8 S4 fixes the Error Response opcode byte to 0x01. -/
def AttOpcode.ErrorRsp : Nat := 0x01

/-- Modelled from the spec: `AttOpcode.FindInformationRsp` comes from `AttOpcode.ts`,
which is not among the provided sources; spec §8 S5 fixes the opcode byte to 0x05. -/
def AttOpcode.FindInformationRsp : Nat := 0x05

/-- Interface `AttErrorRspMsg` (`errorCode` is a numeric enum). -/
structure AttErrorRspMsg where
  requestOpcodeInError : Nat
  attributeHandleInError : Nat
  errorCode : Nat
deriving DecidableEq, Repr

/-- Encoder `AttErrorRsp.serialize`: writes opcode, request opcode, handle (u16 LE)
and error code at offsets 0,1,2,4 of a 5-byte buffer; `throws` models the
`writeUIntLE` range check. -/
def AttErrorRsp.serialize (data : AttErrorRspMsg) : JsOut Unit (List Nat) :=
  if 255 < data.requestOpcodeInError ∨ 65535 < data.attributeHandleInError
      ∨ 255 < data.errorCode then .throws ()
  else .returns [AttOpcode.ErrorRsp, data.requestOpcodeInError,
    data.attributeHandleInError % 256, data.attributeHandleInError / 256,
    data.errorCode]

/-- Decoder `AttErrorRsp.deserialize`: null unless the first byte is the Error
Response opcode and the length is exactly 5; fields are then read with
`readUIntLE(0,1)`, `readUIntLE(1,2)` and `readUIntLE(3,1)` exactly as the source
does. `throws` models `readUInt8(0)` on an empty buffer. -/
def AttErrorRsp.deserialize (buffer : List Nat) :
    JsOut Unit (Option AttErrorRspMsg) :=
  match buffer with
  | [] => .throws ()
  | b0 :: _ =>
    if b0 ≠ AttOpcode.ErrorRsp ∨ buffer.length ≠ 5 then .returns none
    else .returns (some
      { requestOpcodeInError := readUIntLE buffer 0 1,
        attributeHandleInError := readUIntLE buffer 1 2,
        errorCode := readUIntLE buffer 3 1 })

/-- Interface `AttFindInformationRspEntry` (the `uuid` field is a byte buffer). -/
structure AttFindInformationRspEntry where
  handle : Nat
  uuid : List Nat
deriving DecidableEq, Repr

/-- Helper `AttFindInformationRsp.getUuidSize`: the common UUID length of all
entries, which must be 2 or 16; `none` on an empty list or any disagreement. -/
def AttFindInformationRsp.getUuidSize
    (data : List AttFindInformationRspEntry) : Option Nat :=
  match data with
  | [] => none
  | e :: rest =>
    let uuidSize := e.uuid.length
    if uuidSize ≠ 2 ∧ uuidSize ≠ 16 then none
    else if rest.all (fun x => x.uuid.length = uuidSize) then some uuidSize
    else none

/-- Encoder `AttFindInformationRsp.serialize`: opcode, format byte (1 or 2), then
per entry the handle (u16 LE) followed by the uuid bytes copied as-is; `throws`
covers the explicit `Invalid ATT response data` error and the handle range check. -/
def AttFindInformationRsp.serialize
    (data : List AttFindInformationRspEntry) : JsOut Unit (List Nat) :=
  match AttFindInformationRsp.getUuidSize data with
  | none => .throws ()
  | some uuidSize =>
    let format := if uuidSize = 2 then 1 else 2
    if data.all (fun e => e.handle ≤ 65535) then
      .returns ([AttOpcode.FindInformationRsp, format]
        ++ data.flatMap (fun e => [e.handle % 256, e.handle / 256] ++ e.uuid))
    else .throws ()

/-- Format-to-UUID-size table `uuidFormatToSize`: 1 ↦ 2 bytes, 2 ↦ 16 bytes. -/
def AttFindInformationRsp.uuidFormatToSize (format : Nat) : Option Nat :=
  if format = 1 then some 2 else if format = 2 then some 16 else none

/-- Decode loop of `AttFindInformationRsp.deserialize`: while bytes remain, read a
handle (u16 LE), slice the next `uuidSize` bytes (clamped at the end of the
buffer), and push the entry with the uuid reversed; `throws` models
`readUIntLE(o, 2)` when only one byte remains. -/
def AttFindInformationRsp.entriesLoop (uuidSize : Nat) :
    List Nat → JsOut Unit (List AttFindInformationRspEntry)
  | [] => .returns []
  | [_] => .throws ()
  | h0 :: h1 :: rest =>
    match AttFindInformationRsp.entriesLoop uuidSize (rest.drop uuidSize) with
    | .throws e => .throws e
    | .returns tail =>
      .returns (⟨readUInt16LE h0 h1, (rest.take uuidSize).reverse⟩ :: tail)
termination_by l => l.length
decreasing_by simp; omega

/-- Decoder `AttFindInformationRsp.deserialize`: null unless the opcode byte is
0x05, the length is at least 6, the format byte is 1 or 2, and `(len - 2)` is a
multiple of the UUID size from the format table; then the decode loop runs. -/
def AttFindInformationRsp.deserialize (buffer : List Nat) :
    JsOut Unit (Option (List AttFindInformationRspEntry)) :=
  match buffer with
  | [] => .throws ()
  | b0 :: _ =>
    if b0 ≠ AttOpcode.FindInformationRsp ∨ buffer.length < 6 then .returns none
    else
      let format := readUIntLE buffer 1 1
      match AttFindInformationRsp.uuidFormatToSize format with
      | none => .returns none
      | some uuidSize =>
        if (buffer.length - 2) % uuidSize ≠ 0 then .returns none
        else
          match AttFindInformationRsp.entriesLoop uuidSize (buffer.drop 2) with
          | .throws e => .throws e
          | .returns entries => .returns (some entries)

/-! ## Theorems: ATT PDU codecs -/

/-- C6 (code bug): `serialize` writes `01 08 12 00 0A` and a wrong-opcode buffer
deserializes to null, but `deserialize` reads its fields at offsets 0, 1 and 3
instead of 1, 2 and 4, so decoding `01 08 12 00 0A` returns
`{requestOpcodeInError := 0x01, attributeHandleInError := 0x1208, errorCode := 0x00}`
rather than the serialized record — the round-trip of the claim fails. -/
theorem attErrorRsp_deserialize_offset_bug :
    AttErrorRsp.serialize ⟨0x08, 0x0012, 0x0A⟩
      = .returns [0x01, 0x08, 0x12, 0x00, 0x0A]
    ∧ AttErrorRsp.deserialize [0x01, 0x08, 0x12, 0x00, 0x0A]
        = .returns (some ⟨0x01, 0x1208, 0x00⟩)
    ∧ AttErrorRsp.deserialize [0x01, 0x08, 0x12, 0x00, 0x0A]
        ≠ .returns (some ⟨0x08, 0x0012, 0x0A⟩)
    ∧ AttErrorRsp.deserialize [0x02, 0x08, 0x12, 0x00, 0x0A] = .returns none := by
  decide

/-- C7 (code bug): `deserialize` validates `(len - 2)` against the UUID size
(2 or 16) instead of the entry stride (4 or 18): a format-1 buffer of length 8,
malformed under the claim since 6 is not a multiple of 4, decodes non-null with a
truncated empty UUID in its last entry, while a well-formed single-entry format-2
response of length 20 — exactly what the codec's own `serialize` emits — is
rejected as null. -/
theorem attFindInformationRsp_stride_bug :
    AttFindInformationRsp.deserialize [0x05, 0x01, 0x00, 0x00, 0x28, 0x00, 0x00, 0x00]
      = .returns (some [⟨0, [0x00, 0x28]⟩, ⟨0, []⟩])
    ∧ AttFindInformationRsp.serialize [⟨1, List.replicate 16 0xAB⟩]
        = .returns ([0x05, 0x02, 0x01, 0x00] ++ List.replicate 16 0xAB)
    ∧ AttFindInformationRsp.deserialize
        ([0x05, 0x02, 0x01, 0x00] ++ List.replicate 16 0xAB)
      = .returns none := by
  refine ⟨?_, by decide, ?_⟩ <;>
    simp [AttFindInformationRsp.deserialize, AttFindInformationRsp.entriesLoop,
      AttFindInformationRsp.uuidFormatToSize, readUIntLE, readUInt16LE,
      AttOpcode.FindInformationRsp, List.replicate]

/-! ## Advertising-data parser (`AdvDataParser.ts`)

UTF-8 decoded name fields are kept as their raw byte lists (the decode performed
by `toString('utf8')` is not needed by any property below); hex-encoded UUID
strings are produced by a faithful `toString('hex')` model. -/

/-- Interface `AdvDataField`. -/
structure AdvDataField where
  type : Nat
  data : List Nat
deriving DecidableEq, Repr

/-- Structured view `AdvData`; `none` models a field the parser never assigned
(JavaScript `undefined`). -/
structure AdvData where
  flags : Option Nat := none
  serviceUuids : Option (List String) := none
  serviceSolicitationUuids : Option (List String) := none
  localName : Option (List Nat) := none
  shortenedLocalName : Option (List Nat) := none
  completeLocalName : Option (List Nat) := none
  txPowerLevel : Option Int := none
  manufacturerData : Option (Nat × List Nat) := none
  serviceData : Option (List (String × List Nat)) := none
deriving DecidableEq, Repr

/-- Lower-case hexadecimal digit character. -/
def hexDigit (n : Nat) : Char :=
  if n < 10 then Char.ofNat (48 + n) else Char.ofNat (87 + n)

/-- Hex encoding of one byte, as in `Buffer.toString('hex')`. -/
def hexOfByte (b : Nat) : String := String.mk [hexDigit (b / 16 % 16), hexDigit (b % 16)]

/-- Hex encoding of a byte list, as in `Buffer.toString('hex')`. -/
def bytesToHex (l : List Nat) : String := String.join (l.map hexOfByte)

/-- Fixed-stride slicing `slice(j, j + stride)` of the per-type UUID loops; the
last chunk is clamped at the end of the buffer exactly as `slice` clamps. -/
def chunked (stride : Nat) : List Nat → List (List Nat)
  | [] => []
  | a :: rest =>
    if stride = 0 then []
    else (a :: rest).take stride :: chunked stride ((a :: rest).drop stride)
termination_by l => l.length
decreasing_by simp; omega

/-- Dedup push used for the UUID lists: create the list if absent
(`?? []`), then push unless already present (`indexOf === -1`). -/
def addUuid (cur : Option (List String)) (u : String) : Option (List String) :=
  let l := cur.getD []
  some (if l.contains u then l else l.concat u)

/-- Signed 8-bit read `readInt8(0)`; `throws` models the range check on an
empty buffer. -/
def readInt8 (data : List Nat) : JsOut Unit Int :=
  match data with
  | [] => .throws ()
  | b :: _ => .returns (if b < 128 then (b : Int) else (b : Int) - 256)

/-- Per-type handler `AdvDataParser.parseField` (switch on the AD type byte):
flags, 16/32/128-bit service-class UUID lists (chunked, reversed, hex, deduped),
local names, TX power, solicitation UUID lists, service data, and manufacturer
data. Unknown types fall through unchanged. -/
def AdvDataParser.parseField (advData : AdvData) (field : AdvDataField) :
    JsOut Unit AdvData :=
  if field.type = 0x01 then
    .returns { advData with flags := field.data.get? 0 }
  else if field.type = 0x02 ∨ field.type = 0x03 then
    .returns { advData with serviceUuids := ((chunked 2 field.data).foldl
      (fun acc c => addUuid acc (bytesToHex c.reverse)) advData.serviceUuids) }
  else if field.type = 0x04 ∨ field.type = 0x05 then
    .returns { advData with serviceUuids := ((chunked 4 field.data).foldl
      (fun acc c => addUuid acc (bytesToHex c.reverse)) advData.serviceUuids) }
  else if field.type = 0x06 ∨ field.type = 0x07 then
    .returns { advData with serviceUuids := ((chunked 16 field.data).foldl
      (fun acc c =>
        let u := bytesToHex c.reverse
        if u = "" then acc else addUuid acc u) advData.serviceUuids) }
  else if field.type = 0x08 then
    .returns { advData with
      shortenedLocalName := some field.data,
      localName := if advData.localName = none ∨ advData.localName = some [] then
          some field.data
        else advData.localName }
  else if field.type = 0x09 then
    .returns { advData with
      completeLocalName := some field.data, localName := some field.data }
  else if field.type = 0x0A then
    match readInt8 field.data with
    | .throws e => .throws e
    | .returns v => .returns { advData with txPowerLevel := some v }
  else if field.type = 0x14 then
    .returns { advData with serviceSolicitationUuids := ((chunked 2 field.data).foldl
      (fun acc c => addUuid acc (bytesToHex c.reverse))
      advData.serviceSolicitationUuids) }
  else if field.type = 0x15 then
    .returns { advData with serviceSolicitationUuids := ((chunked 16 field.data).foldl
      (fun acc c => addUuid acc (bytesToHex c.reverse))
      advData.serviceSolicitationUuids) }
  else if field.type = 0x1F then
    .returns { advData with serviceSolicitationUuids := ((chunked 4 field.data).foldl
      (fun acc c => addUuid acc (bytesToHex c.reverse))
      advData.serviceSolicitationUuids) }
  else if field.type = 0x16 then
    .returns { advData with serviceData := (some ((advData.serviceData.getD []).concat
      (bytesToHex (field.data.take 2).reverse, field.data.drop 2))) }
  else if field.type = 0x20 then
    .returns { advData with serviceData := (some ((advData.serviceData.getD []).concat
      (bytesToHex (field.data.take 4).reverse, field.data.drop 4))) }
  else if field.type = 0x21 then
    .returns { advData with serviceData := (some ((advData.serviceData.getD []).concat
      (bytesToHex (field.data.take 16).reverse, field.data.drop 16))) }
  else if field.type = 0xFF then
    match field.data with
    | b0 :: b1 :: rest =>
      .returns { advData with manufacturerData := some (readUInt16LE b0 b1, rest) }
    | _ => .throws ()
  else .returns advData

/-- Record scanner of `AdvDataParser.parse`: read a length byte; if it is zero or
no type byte remains, continue with the next byte; otherwise read the type byte,
slice `len - 1` value bytes (clamped at the end of the buffer by `slice`), and
advance by `len - 1`. -/
def AdvDataParser.splitFields : List Nat → List AdvDataField
  | [] => []
  | len :: rest =>
    if len = 0 then AdvDataParser.splitFields rest
    else
      match rest with
      | [] => []
      | t :: rest2 =>
        ⟨t, rest2.take (len - 1)⟩ :: AdvDataParser.splitFields (rest2.drop (len - 1))
termination_by l => l.length
decreasing_by all_goals simp <;> omega

/-- Parser `AdvDataParser.parse`: empty view for a null `data` buffer, otherwise
scan the records and fold every field through `parseField`. -/
def AdvDataParser.parse (adBuffer : Option (List Nat)) : JsOut Unit AdvData :=
  match adBuffer with
  | none => .returns {}
  | some buf =>
    (AdvDataParser.splitFields buf).foldl
      (fun acc f =>
        match acc with
        | .throws e => .throws e
        | .returns ad => AdvDataParser.parseField ad f)
      (.returns {})

/-! ## Theorems: advertising-data parser -/

/-- C8 counterexample: the record `05 01 06` declares four value bytes but only
one remains; the claim says such a record is skipped entirely and contributes
nothing, yet `parse` keeps it (truncated by `slice`) and sets `flags = 0x06`;
moreover `parse` is not total: the in-bounds record `01 0A` (TX power with an
empty value) makes it throw a range error from `readInt8`. -/
theorem advdata_overrun_record_counterexample :
    AdvDataParser.parse (some [0x05, 0x01, 0x06]) = .returns { flags := some 0x06 }
    ∧ AdvDataParser.parse (some [0x05, 0x01, 0x06]) ≠ AdvDataParser.parse (some [])
    ∧ AdvDataParser.parse (some [0x01, 0x0A]) = .throws () := by
  refine ⟨?_, ?_, ?_⟩ <;>
    simp [AdvDataParser.parse, AdvDataParser.splitFields, AdvDataParser.parseField,
      readInt8]

/-- C8 (amended): the record scanner always terminates; a record whose length
byte is zero, or whose length byte is the last byte of the buffer, is skipped
and scanning continues; a record whose declared value extends past the end of
the buffer is not skipped — its value is truncated to the bytes available and it
still contributes (consuming the rest of the buffer). -/
theorem advdata_record_scan_malformed :
    (∀ rest : List Nat,
      AdvDataParser.splitFields (0 :: rest) = AdvDataParser.splitFields rest)
    ∧ (∀ len : Nat, AdvDataParser.splitFields [len] = [])
    ∧ (∀ len t : Nat, ∀ rest : List Nat, len ≠ 0 → rest.length < len - 1 →
        AdvDataParser.splitFields (len :: t :: rest) = [⟨t, rest⟩]) := by
  refine ⟨?_, ?_, ?_⟩
  · intro rest
    rw [AdvDataParser.splitFields.eq_def]
    simp
  · intro len
    by_cases h : len = 0
    · rw [AdvDataParser.splitFields.eq_def]
      simp [h]
      rw [AdvDataParser.splitFields.eq_def]
    · rw [AdvDataParser.splitFields.eq_def]
      simp [h]
  · intro len t rest h0 hov
    rw [AdvDataParser.splitFields.eq_def]
    simp only [h0, if_false]
    simp [h0, List.take_of_length_le (by omega : rest.length ≤ len - 1),
      List.drop_eq_nil_of_le (by omega : rest.length ≤ len - 1),
      AdvDataParser.splitFields]

/-- Witness for C8 (amended) at concrete records. -/
theorem advdata_record_scan_malformed_witness :
    AdvDataParser.splitFields [0, 2, 1, 6] = AdvDataParser.splitFields [2, 1, 6]
    ∧ AdvDataParser.splitFields [9] = []
    ∧ AdvDataParser.splitFields [5, 1, 6] = [⟨1, [6]⟩] :=
  ⟨advdata_record_scan_malformed.1 [2, 1, 6],
   advdata_record_scan_malformed.2.1 9,
   advdata_record_scan_malformed.2.2 5 1 [6] (by decide) (by decide)⟩

/-! ## LE controller codecs (`HciLeController.ts`) -/

/-- Error thrown via `makeHciError(HciErrorCode.InvalidCommandParameter)`
(`HciError.ts` is not among the provided sources; only the identity of the code
matters here, not its numeric value). -/
inductive HciCodecError where
  | invalidCommandParameter
deriving DecidableEq, Repr

/-- Encoder `LeEncrypt.inParams`: rejects unless key and plaintext are exactly 16
bytes; otherwise `key.reverse()` and `plaintextData.reverse()` — which reverse the
caller's buffers in place — are copied into a 32-byte payload. The result triple
is (payload, final contents of the caller's key buffer, final contents of the
caller's plaintext buffer). -/
def LeEncrypt.inParams (key plaintextData : List Nat) :
    JsOut HciCodecError (List Nat × List Nat × List Nat) :=
  if key.length ≠ 16 ∨ plaintextData.length ≠ 16 then
    .throws .invalidCommandParameter
  else
    .returns (key.reverse ++ plaintextData.reverse, key.reverse,
      plaintextData.reverse)

/-! ## Theorems: LE Encrypt codec -/

/-- C9 counterexample: on 16-byte inputs the call succeeds, but the caller's key
buffer ends up reversed — `Buffer.reverse` reverses in place — contradicting the
claim that the codec leaves the caller's buffers unmodified. -/
theorem leEncrypt_mutates_inputs_counterexample :
    LeEncrypt.inParams (List.range 16) (List.range 16)
      = .returns ((List.range 16).reverse ++ (List.range 16).reverse,
          (List.range 16).reverse, (List.range 16).reverse)
    ∧ (List.range 16).reverse ≠ List.range 16 := by decide

/-- C9 (amended): `LeEncrypt.inParams` throws `InvalidCommandParameter` unless
both buffers have length exactly 16; on success the 32-byte payload is the key
byte-reversed followed by the plaintext byte-reversed, and as a side effect the
caller's key and plaintext buffers are reversed in place (the codec is not pure). -/
theorem leEncrypt_inParams_layout (key plaintextData : List Nat) :
    (key.length = 16 → plaintextData.length = 16 →
      LeEncrypt.inParams key plaintextData
        = .returns (key.reverse ++ plaintextData.reverse, key.reverse,
            plaintextData.reverse)
      ∧ (key.reverse ++ plaintextData.reverse).length = 32)
    ∧ (key.length ≠ 16 ∨ plaintextData.length ≠ 16 →
      LeEncrypt.inParams key plaintextData = .throws .invalidCommandParameter) := by
  constructor
  · intro h1 h2
    constructor
    · simp [LeEncrypt.inParams, h1, h2]
    · simp [h1, h2]
  · intro h
    simp only [LeEncrypt.inParams]
    rw [if_pos h]

/-- Witness for C9 (amended) at 16-byte inputs and at an invalid input. -/
theorem leEncrypt_inParams_layout_witness :
    LeEncrypt.inParams (List.range 16) (List.replicate 16 0)
      = .returns ((List.range 16).reverse ++ List.replicate 16 0,
          (List.range 16).reverse, List.replicate 16 0)
    ∧ LeEncrypt.inParams [] [] = .throws .invalidCommandParameter := by
  constructor
  · have h := (leEncrypt_inParams_layout (List.range 16)
      (List.replicate 16 0)).1 (by decide) (by decide)
    simpa using h.1
  · exact (leEncrypt_inParams_layout [] []).2 (by decide)

/-! ## LE supported states decoder (`HciLeController.ts`) -/

/-- Enum `LeState`. -/
inductive LeState where
  | ScanUndirectAdv
  | ConnScanUndirectAdv
  | NonConnNonScanUndirectAdv
  | HighDutyConnDirectAdv
  | LowDutyConnDirectAdv
  | ActiveScanning
  | PassiveScanning
  | Initiating
  | ConnectionMasterRole
  | ConnectionSlaveRole
deriving DecidableEq, Repr

/-- Table `LeAllowedStates`: the 42-entry bit-index-to-role-combination mapping,
transcribed verbatim. -/
def LeAllowedStates : List (List LeState) := [
  [.NonConnNonScanUndirectAdv],
  [.ScanUndirectAdv],
  [.ConnScanUndirectAdv],
  [.HighDutyConnDirectAdv],
  [.PassiveScanning],
  [.ActiveScanning],
  [.Initiating],
  [.ConnectionSlaveRole],
  [.NonConnNonScanUndirectAdv, .PassiveScanning],
  [.ScanUndirectAdv, .PassiveScanning],
  [.ConnScanUndirectAdv, .PassiveScanning],
  [.HighDutyConnDirectAdv, .PassiveScanning],
  [.NonConnNonScanUndirectAdv, .ActiveScanning],
  [.ScanUndirectAdv, .ActiveScanning],
  [.ConnScanUndirectAdv, .ActiveScanning],
  [.HighDutyConnDirectAdv, .ActiveScanning],
  [.NonConnNonScanUndirectAdv, .Initiating],
  [.ScanUndirectAdv, .Initiating],
  [.NonConnNonScanUndirectAdv, .ConnectionMasterRole],
  [.ScanUndirectAdv, .ConnectionMasterRole],
  [.NonConnNonScanUndirectAdv, .ConnectionSlaveRole],
  [.ScanUndirectAdv, .ConnectionSlaveRole],
  [.PassiveScanning, .Initiating],
  [.ActiveScanning, .Initiating],
  [.PassiveScanning, .ConnectionMasterRole],
  [.ActiveScanning, .ConnectionMasterRole],
  [.PassiveScanning, .ConnectionSlaveRole],
  [.ActiveScanning, .ConnectionSlaveRole],
  [.Initiating, .ConnectionMasterRole],
  [.LowDutyConnDirectAdv],
  [.LowDutyConnDirectAdv, .PassiveScanning],
  [.LowDutyConnDirectAdv, .ActiveScanning],
  [.ConnScanUndirectAdv, .Initiating],
  [.HighDutyConnDirectAdv, .Initiating],
  [.LowDutyConnDirectAdv, .Initiating],
  [.ConnScanUndirectAdv, .ConnectionMasterRole],
  [.HighDutyConnDirectAdv, .ConnectionMasterRole],
  [.LowDutyConnDirectAdv, .ConnectionMasterRole],
  [.ConnScanUndirectAdv, .ConnectionSlaveRole],
  [.HighDutyConnDirectAdv, .ConnectionSlaveRole],
  [.LowDutyConnDirectAdv, .ConnectionSlaveRole],
  [.Initiating, .ConnectionSlaveRole]]

/-- Decoder `LeSupportedStates.fromBitmask`: for each bit index `b` from 0 to 41,
push `LeAllowedStates[b]` when bit `b` of the mask is set. -/
def LeSupportedStates.fromBitmask (bitmask : Nat) : List (List LeState) :=
  (List.range 42).foldl
    (fun states b =>
      if bitmask &&& (1 <<< b) ≠ 0 then states.concat (LeAllowedStates.getD b [])
      else states)
    []

/-- Helper: a fold that conditionally pushes is a filter-map. -/
theorem foldl_concat_filter_map {β : Type} (p : Nat → Bool) (f : Nat → β) :
    ∀ (l : List Nat) (acc : List β),
      l.foldl (fun s b => if p b then s.concat (f b) else s) acc
        = acc ++ (l.filter p).map f := by
  intro l
  induction l with
  | nil => intro acc; simp
  | cons a l ih =>
    intro acc
    rw [List.foldl_cons, ih (if p a then acc.concat (f a) else acc)]
    cases hpa : p a <;> simp [hpa]

/-! ## Theorems: LE supported states decoder -/

/-- C10: `fromBitmask` depends only on bits 0 through 41 of the mask, and its
states list is exactly `LeAllowedStates[b]` for each set bit `b`, in increasing
bit-index order. -/
theorem leSupportedStates_fromBitmask_bits (m m' : Nat)
    (h : ∀ b, b < 42 → m.testBit b = m'.testBit b) :
    LeSupportedStates.fromBitmask m = LeSupportedStates.fromBitmask m'
    ∧ LeSupportedStates.fromBitmask m
        = ((List.range 42).filter (fun b => m.testBit b)).map
            (fun b => LeAllowedStates.getD b []) := by
  have hchar : ∀ n : Nat, LeSupportedStates.fromBitmask n
      = ((List.range 42).filter (fun b => n.testBit b)).map
          (fun b => LeAllowedStates.getD b []) := by
    intro n
    unfold LeSupportedStates.fromBitmask
    have hiff : ∀ b : Nat, (n &&& (1 <<< b) ≠ 0) ↔ (n.testBit b = true) := by
      intro b
      rw [Nat.one_shiftLeft, Nat.and_two_pow]
      cases hb : n.testBit b <;> simp [hb, (Nat.two_pow_pos b).ne']
    have hcond : ∀ (s : List (List LeState)) (b : Nat),
        (if n &&& (1 <<< b) ≠ 0 then s.concat (LeAllowedStates.getD b []) else s)
          = (if n.testBit b then s.concat (LeAllowedStates.getD b []) else s) := by
      intro s b
      by_cases hb : n.testBit b
      · rw [if_pos ((hiff b).mpr hb), if_pos hb]
      · rw [if_neg (fun hc => hb ((hiff b).mp hc)), if_neg hb]
    simp only [hcond]
    simpa using foldl_concat_filter_map (fun b => n.testBit b)
      (fun b => LeAllowedStates.getD b []) (List.range 42) []
  refine ⟨?_, hchar m⟩
  rw [hchar m, hchar m']
  congr 1
  apply List.filter_congr
  intro b hb
  exact h b (List.mem_range.mp hb)

/-- Witness for C10: bit 50 does not change the result; bits 3 and 41 decode to
the corresponding table rows in increasing order. -/
theorem leSupportedStates_fromBitmask_bits_witness :
    LeSupportedStates.fromBitmask (2 ^ 50 + 2 ^ 41 + 2 ^ 3)
      = LeSupportedStates.fromBitmask (2 ^ 41 + 2 ^ 3)
    ∧ LeSupportedStates.fromBitmask (2 ^ 41 + 2 ^ 3)
      = [[.HighDutyConnDirectAdv], [.Initiating, .ConnectionSlaveRole]] :=
  ⟨(leSupportedStates_fromBitmask_bits (2 ^ 50 + 2 ^ 41 + 2 ^ 3) (2 ^ 41 + 2 ^ 3)
      (by decide)).1,
   by decide⟩

end NBle
